import Mathlib

/-!
# Steam Manifest Downloader — verification of the spec against the source

Shallow embedding of the download-pipeline logic of the repository
(frontend logic from `preload.js`: search/merge resolution, progress
parsing and UI event handling), together with a job state machine
modelled from the spec for the parts of the orchestrator whose code
(the Tauri backend) is not part of the source tree.
-/

namespace SMD

/-! ## Data model (frontend `preload.js`)

A depot record as normalised by the frontend: `manifestId` uses the
sentinel string `"N/A"` when the source supplied none, `depotKey` is
`null` (here `none`) when absent. -/

structure Depot where
  depotId : String
  manifestId : String
  depotKey : Option String
deriving DecidableEq, Repr

/-- A manifest record fetched from a GitHub repository, as normalised in
`proceedFromSearch` (`manifestId` falls back to `"N/A"`). -/
structure GhManifest where
  depotId : String
  manifestId : String
deriving DecidableEq, Repr

/-- A repository entry of the search results, as normalised in
`performSearch` (only the field the merge trigger inspects). -/
structure Repo where
  name : String
  rtype : String
deriving DecidableEq, Repr

/-! ## Manifest merge (`proceedFromSearch`, preload.js) -/

/-- The check `sourceName === 'KernelOS' || sourceName === 'kernelos'`. -/
def isKernelOS (sourceName : String) : Bool :=
  sourceName == "KernelOS" || sourceName == "kernelos"

/-- JS truthiness of the normalised `manifestId` string:
`!d.manifestId || d.manifestId === 'N/A'`. -/
def lacksManifest (d : Depot) : Bool :=
  d.manifestId == "" || d.manifestId == "N/A"

/-- The guard `depots.length > 0 && depots.every(d => !d.manifestId || d.manifestId === 'N/A')`. -/
def needsManifests (depots : List Depot) : Bool :=
  !depots.isEmpty && depots.all lacksManifest

/-- The lookup `state.searchRepos.find(r => r.type === 'github')`. -/
def findGithubRepo (repos : List Repo) : Option Repo :=
  repos.find? (fun r => r.rtype == "github")

/-- The exact guard of the KernelOS merge branch:
`isKernelOS && needsManifests && state.searchRepos && state.searchRepos.length > 0`
followed by the `if (githubRepo)` check. -/
def mergeTriggered (sourceName : String) (depots : List Depot) (repos : List Repo) : Bool :=
  isKernelOS sourceName && needsManifests depots && !repos.isEmpty
    && (findGithubRepo repos).isSome

/-- First merge loop: for each depot of the primary list, look the depot
up among the GitHub manifests and, when the match carries a truthy
`manifestId`, assign it. -/
def fillManifests (depots : List Depot) (gh : List GhManifest) : List Depot :=
  depots.map fun d =>
    match gh.find? (fun m => m.depotId == d.depotId) with
    | some m => if m.manifestId != "" then { d with manifestId := m.manifestId } else d
    | none => d

/-- Second merge loop: every GitHub manifest whose depot is absent from
the accumulated list is pushed as a new depot with no key. -/
def appendGhOnly (depots : List Depot) (gh : List GhManifest) : List Depot :=
  gh.foldl
    (fun acc m =>
      if (acc.find? (fun d => d.depotId == m.depotId)).isSome then acc
      else acc ++ [⟨m.depotId, if m.manifestId != "" then m.manifestId else "N/A", none⟩])
    depots

/-- The complete merge of `proceedFromSearch`: fill manifest IDs, then
append GitHub-only depots. -/
def mergeDepots (depots : List Depot) (gh : List GhManifest) : List Depot :=
  appendGhOnly (fillManifests depots gh) gh

/-- The alternative-source resolution outcome.  `ghFetch` stands for the
result of the `get_repo_manifests` call for the GitHub repo found in the
search results: `none` models an unavailable or failed fetch (the
`catch` keeps the primary list untouched). -/
def resolveAlternative (sourceName : String) (depots : List Depot) (repos : List Repo)
    (ghFetch : Option (List GhManifest)) : List Depot :=
  if mergeTriggered sourceName depots repos then
    match ghFetch with
    | some gh => mergeDepots depots gh
    | none => depots
  else depots

end SMD

namespace SMD

/-! ## Claims C1 and C2 -/

/-- Claim C1: The two-source merge is triggered only when the primary
(alternative-source) depot list is non-empty, every depot in it lacks a
manifest ID, and a GitHub repo is present in the search results; and as
soon as one primary depot carries a manifest ID, no merge is performed
and the primary list is returned unchanged. -/
theorem c1_merge_trigger (sourceName : String) (depots : List Depot) (repos : List Repo)
    (ghFetch : Option (List GhManifest)) :
    (mergeTriggered sourceName depots repos = true →
      depots ≠ [] ∧ (∀ d ∈ depots, lacksManifest d = true) ∧
        ∃ r ∈ repos, r.rtype = "github") ∧
    ((∃ d ∈ depots, lacksManifest d = false) →
      mergeTriggered sourceName depots repos = false ∧
        resolveAlternative sourceName depots repos ghFetch = depots) := by
  constructor
  · intro h
    simp only [mergeTriggered, Bool.and_eq_true, needsManifests, Option.isSome_iff_exists]
      at h
    obtain ⟨⟨⟨_, hne, hall⟩, _⟩, r, hr⟩ := h
    refine ⟨by simpa using hne, by simpa [List.all_eq_true] using hall, r, ?_, ?_⟩
    · exact List.mem_of_find?_eq_some hr
    · have := List.find?_some hr
      simpa using this
  · rintro ⟨d, hd, hlacks⟩
    have htrig : mergeTriggered sourceName depots repos = false := by
      simp only [mergeTriggered, needsManifests]
      have : depots.all lacksManifest = false := by
        rw [Bool.eq_false_iff]
        intro hall
        have := (List.all_eq_true.mp hall) d hd
        rw [hlacks] at this
        exact Bool.false_ne_true this
      simp [this]
    exact ⟨htrig, by simp [resolveAlternative, htrig]⟩

/-- Claim C1 witness: A concrete instantiation: one KernelOS depot with a
present manifest ID suppresses the merge. -/
theorem c1_merge_trigger_witness :
    mergeTriggered "KernelOS" [⟨"d1", "m1", some "k1"⟩] [⟨"repo", "github"⟩] = false ∧
      resolveAlternative "KernelOS" [⟨"d1", "m1", some "k1"⟩] [⟨"repo", "github"⟩]
        (some [⟨"d1", "m9"⟩]) = [⟨"d1", "m1", some "k1"⟩] :=
  (c1_merge_trigger "KernelOS" [⟨"d1", "m1", some "k1"⟩] [⟨"repo", "github"⟩]
    (some [⟨"d1", "m9"⟩])).2 ⟨⟨"d1", "m1", some "k1"⟩, by simp, by decide⟩

/-! ## Progress percentage extraction (`handleOutput`, preload.js)

The source applies the regular expression
`/^\s*(\d{1,3}(?:\.\d{1,2})?)%/` to each streamed output line and, on a
match, feeds `parseFloat` of the captured group to
`updateDepotDownloadProgress`.  The matcher below reproduces the
(anchored, backtracking) semantics of that pattern: since `\s`, `\d`,
`.`, and `%` are pairwise disjoint, greedy matching with backtracking
collapses to the deterministic scan implemented here — the integer part
must be the full leading digit run (of length 1–3), the optional
fraction the full digit run after `.` (of length 1–2), each directly
followed by `%`. -/

/-- The JS `\s` class (ASCII part plus the Unicode space characters). -/
def jsWhitespace (c : Char) : Bool :=
  c == ' ' || c == '\t' || c == '\n' || c == '\r' || c == '\x0b' || c == '\x0c' ||
  c == ' ' || c == ' ' || (' ' ≤ c && c ≤ ' ') ||
  c == ' ' || c == ' ' || c == ' ' || c == ' ' ||
  c == '　' || c == '﻿'

/-- The JS `\d` class. -/
def isDigitC (c : Char) : Bool := 48 ≤ c.toNat && c.toNat ≤ 57

/-- Decimal value of a digit string, as `parseFloat` reads an integer
part or a fraction part. -/
def digitsVal (cs : List Char) : ℕ :=
  cs.foldl (fun a c => 10 * a + (c.toNat - 48)) 0

/-- Match the part of the pattern after the leading digit run `ds`:
either `%` directly, or a 1–2 digit fraction followed by `%`. -/
def matchTail (ds : List Char) (r1 : List Char) : Option (List Char × List Char) :=
  if 1 ≤ ds.length ∧ ds.length ≤ 3 then
    match r1 with
    | '%' :: _ => some (ds, [])
    | '.' :: r2 =>
      if 1 ≤ (r2.takeWhile isDigitC).length ∧ (r2.takeWhile isDigitC).length ≤ 2 then
        match r2.dropWhile isDigitC with
        | '%' :: _ => some (ds, r2.takeWhile isDigitC)
        | _ => none
      else none
    | _ => none
  else none

/-- Run the percentage regex against a line; on success return the
digits of the integer part and of the (possibly empty) fraction part of
the captured group. -/
def matchPercent (cs : List Char) : Option (List Char × List Char) :=
  matchTail ((cs.dropWhile jsWhitespace).takeWhile isDigitC)
    ((cs.dropWhile jsWhitespace).dropWhile isDigitC)

/-- Value of the captured group under `parseFloat`. -/
def percentVal (ds fs : List Char) : ℚ :=
  (digitsVal ds : ℚ) + (digitsVal fs : ℚ) / 10 ^ fs.length

/-- Percentage extracted from one output line, `none` when the regex
does not match. -/
def parsePercent (line : String) : Option ℚ :=
  (matchPercent line.data).map fun p => percentVal p.1 p.2

/-- One step of `handleOutput`'s effect on the recorded current-depot
percentage: a matching line replaces it, any other line keeps it. -/
def handleOutputPercent (prev : Option ℚ) (line : String) : Option ℚ :=
  match parsePercent line with
  | some p => some p
  | none => prev

lemma digitsVal_foldl_lt (cs : List Char) :
    ∀ a : ℕ, (∀ c ∈ cs, isDigitC c = true) →
      cs.foldl (fun a c => 10 * a + (c.toNat - 48)) a < (a + 1) * 10 ^ cs.length := by
  induction cs with
  | nil => intro a _; simp
  | cons c cs ih =>
    intro a h
    have hc : c.toNat - 48 ≤ 9 := by
      have := h c (List.mem_cons_self c cs)
      simp only [isDigitC, Bool.and_eq_true, decide_eq_true_eq] at this
      omega
    have hrec := ih (10 * a + (c.toNat - 48)) (fun x hx => h x (List.mem_cons_of_mem c hx))
    calc (c :: cs).foldl (fun a c => 10 * a + (c.toNat - 48)) a
        = cs.foldl (fun a c => 10 * a + (c.toNat - 48)) (10 * a + (c.toNat - 48)) := rfl
      _ < (10 * a + (c.toNat - 48) + 1) * 10 ^ cs.length := hrec
      _ ≤ (a + 1) * 10 ^ (c :: cs).length := by
          simp only [List.length_cons, pow_succ]
          have : 10 * a + (c.toNat - 48) + 1 ≤ (a + 1) * 10 := by omega
          calc (10 * a + (c.toNat - 48) + 1) * 10 ^ cs.length
              ≤ (a + 1) * 10 * 10 ^ cs.length :=
                Nat.mul_le_mul_right _ this
            _ = (a + 1) * (10 ^ cs.length * 10) := by ring

lemma digitsVal_lt (cs : List Char) (h : ∀ c ∈ cs, isDigitC c = true) :
    digitsVal cs < 10 ^ cs.length := by
  have := digitsVal_foldl_lt cs 0 h
  simpa [digitsVal] using this

lemma matchTail_inv {ds r1 dso fso : List Char}
    (h : matchTail ds r1 = some (dso, fso)) :
    dso = ds ∧ 1 ≤ ds.length ∧ ds.length ≤ 3 ∧
      (∀ c ∈ fso, isDigitC c = true) ∧ fso.length ≤ 2 := by
  unfold matchTail at h
  split at h
  case isTrue hlen =>
    split at h
    · simp only [Option.some.injEq, Prod.mk.injEq] at h
      obtain ⟨rfl, rfl⟩ := h
      exact ⟨rfl, hlen.1, hlen.2, by simp, by simp⟩
    · split at h
      case isTrue hflen =>
        split at h
        · simp only [Option.some.injEq, Prod.mk.injEq] at h
          obtain ⟨rfl, rfl⟩ := h
          exact ⟨rfl, hlen.1, hlen.2, fun c hc => List.mem_takeWhile_imp hc, hflen.2⟩
        · exact absurd h (by simp)
      case isFalse => exact absurd h (by simp)
    · exact absurd h (by simp)
  case isFalse => exact absurd h (by simp)

lemma matchPercent_inv {cs : List Char} {ds fs : List Char}
    (h : matchPercent cs = some (ds, fs)) :
    (∀ c ∈ ds, isDigitC c = true) ∧ 1 ≤ ds.length ∧ ds.length ≤ 3 ∧
      (∀ c ∈ fs, isDigitC c = true) ∧ fs.length ≤ 2 := by
  obtain ⟨rfl, h1, h2, h3, h4⟩ := matchTail_inv h
  exact ⟨fun c hc => List.mem_takeWhile_imp hc, h1, h2, h3, h4⟩

lemma parsePercent_bounds {line : String} {p : ℚ} (h : parsePercent line = some p) :
    0 ≤ p ∧ p ≤ 999 + 99 / 100 := by
  unfold parsePercent at h
  obtain ⟨⟨ds, fs⟩, hm, rfl⟩ := Option.map_eq_some'.mp h
  obtain ⟨hds, hds1, hds3, hfs, hfs2⟩ := matchPercent_inv hm
  have hdval : digitsVal ds ≤ 999 := by
    have := digitsVal_lt ds hds
    have h10 : (10 : ℕ) ^ ds.length ≤ 10 ^ 3 := Nat.pow_le_pow_right (by omega) hds3
    omega
  have hfval : digitsVal fs < 10 ^ fs.length := digitsVal_lt fs hfs
  have hfrac_nonneg : (0 : ℚ) ≤ (digitsVal fs : ℚ) / 10 ^ fs.length := by positivity
  have hfrac_le : (digitsVal fs : ℚ) / 10 ^ fs.length ≤ 99 / 100 := by
    set k := fs.length with hk
    have hk2 : k ≤ 2 := hfs2
    interval_cases k
    · have : digitsVal fs = 0 := by omega
      rw [this]
      norm_num
    · have h9 : (digitsVal fs : ℚ) ≤ 9 := by exact_mod_cast Nat.le_of_lt_succ hfval
      rw [div_le_iff₀ (by positivity)]
      linarith
    · have h99 : (digitsVal fs : ℚ) ≤ 99 := by
        exact_mod_cast Nat.le_of_lt_succ hfval
      rw [div_le_iff₀ (by positivity)]
      linarith
  constructor
  · unfold percentVal
    positivity
  · unfold percentVal
    have : (digitsVal ds : ℚ) ≤ 999 := by exact_mod_cast hdval
    linarith

/-- Claim C3 counterexample: The line `"999% done"` matches the leading
percentage pattern and yields `999`, which does not lie in `[0, 100]` as
the claim states. -/
theorem c3_counterexample :
    handleOutputPercent (some 0) "999% done" = some 999 ∧ ¬ ((999 : ℚ) ≤ 100) := by
  have hm : matchPercent "999% done".data = some (['9', '9', '9'], []) := by decide
  have hd : digitsVal ['9', '9', '9'] = 999 := by decide
  have hd0 : digitsVal [] = 0 := rfl
  constructor
  · norm_num [handleOutputPercent, parsePercent, hm, percentVal, hd, hd0]
  · norm_num

/-- Claim C3 (amended): A line whose leading token matches the percentage
pattern (after optional whitespace: one-to-three digits, optional
one-or-two-digit fraction, then `%`) replaces the recorded percentage
with the extracted value, which lies in `[0, 999.99]`; a line with no
such token leaves the previous value unchanged; `"01.83% depots\..."`
yields `1.83` and `"100% done"` yields `100`. -/
theorem c3_percent_extraction :
    (∀ prev line, parsePercent line = none → handleOutputPercent prev line = prev) ∧
    (∀ prev line p, parsePercent line = some p → handleOutputPercent prev line = some p) ∧
    (∀ line p, parsePercent line = some p → 0 ≤ p ∧ p ≤ 999 + 99 / 100) ∧
    parsePercent "01.83% depots\\..." = some (183 / 100) ∧
    parsePercent "100% done" = some 100 := by
  refine ⟨?_, ?_, ?_, ?_, ?_⟩
  · intro prev line h
    simp [handleOutputPercent, h]
  · intro prev line p h
    simp [handleOutputPercent, h]
  · intro line p h
    exact parsePercent_bounds h
  · have hm : matchPercent "01.83% depots\\...".data = some (['0', '1'], ['8', '3']) := by
      decide
    have hd1 : digitsVal ['0', '1'] = 1 := by decide
    have hd2 : digitsVal ['8', '3'] = 83 := by decide
    norm_num [parsePercent, hm, percentVal, hd1, hd2]
  · have hm : matchPercent "100% done".data = some (['1', '0', '0'], []) := by decide
    have hd : digitsVal ['1', '0', '0'] = 100 := by decide
    have hd0 : digitsVal [] = 0 := rfl
    norm_num [parsePercent, hm, percentVal, hd, hd0]

/-- Claim C3 witness: A non-matching line keeps the recorded percentage; a
matching line replaces it and the extracted values obey the bound. -/
theorem c3_percent_extraction_witness :
    handleOutputPercent (some (183 / 100)) "Downloading depot 228988 ..." =
        some (183 / 100) ∧
      handleOutputPercent none "100% done" = some 100 ∧
      (0 : ℚ) ≤ 100 ∧ (100 : ℚ) ≤ 999 + 99 / 100 := by
  have hnone : parsePercent "Downloading depot 228988 ..." = none := by
    have hm : matchPercent "Downloading depot 228988 ...".data = none := by decide
    simp [parsePercent, hm]
  exact ⟨c3_percent_extraction.1 (some (183 / 100)) "Downloading depot 228988 ..." hnone,
    c3_percent_extraction.2.1 none "100% done" 100 c3_percent_extraction.2.2.2.2,
    (c3_percent_extraction.2.2.1 "100% done" 100 c3_percent_extraction.2.2.2.2).1,
    (c3_percent_extraction.2.2.1 "100% done" 100 c3_percent_extraction.2.2.2.2).2⟩

/-- Claim C2: For the documented two-source case — primary source
`A = {d1: key only}`, secondary source `B = {d1: manifest, d2: manifest}` —
the merge yields `{d1: key+manifest, d2: manifest, no key}`: the depot
present in both keeps its key and has its missing manifest ID filled, the
secondary-only depot is appended with no key, and the outcome does not
depend on the order of the secondary list. -/
theorem c2_merge_documented_case :
    mergeDepots [⟨"d1", "N/A", some "k1"⟩] [⟨"d1", "m1"⟩, ⟨"d2", "m2"⟩] =
      [⟨"d1", "m1", some "k1"⟩, ⟨"d2", "m2", none⟩] ∧
    mergeDepots [⟨"d1", "N/A", some "k1"⟩] [⟨"d2", "m2"⟩, ⟨"d1", "m1"⟩] =
      [⟨"d1", "m1", some "k1"⟩, ⟨"d2", "m2", none⟩] := by
  constructor <;> rfl

end SMD

namespace SMD

/-! ## Download start: custom manifest IDs (`startDownload`, preload.js) -/

/-- A per-depot uploaded `.manifest` file as stored in
`state.depotManifests`. -/
structure Uploaded where
  originalName : String
  storedPath : String
deriving DecidableEq, Repr

/-- A depot entry of the download request built by `startDownload`. -/
structure DepotTaskFE where
  depotId : String
  manifestId : String
  depotKey : Option String
  customManifestId : Option String
  uploadedManifestPath : Option String
deriving DecidableEq, Repr

/-- JS `String.prototype.trim`: strip whitespace from both ends. -/
def jsTrim (s : String) : String :=
  String.mk (((s.data.dropWhile jsWhitespace).reverse.dropWhile jsWhitespace).reverse)

/-- The second capture group of `/^(\d+)_(\d+)\.manifest$/` applied to a
filename, `none` when the name does not match.  Both digit runs are
maximal, which is exactly what the anchored greedy pattern yields since
`\d`, `_`, and `.` are disjoint. -/
def manifestIdFromName (name : String) : Option String :=
  match name.data.dropWhile isDigitC with
  | '_' :: r2 =>
    if name.data.takeWhile isDigitC ≠ [] ∧ r2.takeWhile isDigitC ≠ [] ∧
        r2.dropWhile isDigitC = ".manifest".data then
      some (String.mk (r2.takeWhile isDigitC))
    else none
  | _ => none

/-- The per-depot request record built by `startDownload`: the trimmed
typed custom manifest ID if non-empty, else the ID extracted from an
uploaded file name, else `null`; the uploaded file's stored path is
attached whenever a file is present. -/
def buildTask (depot : Depot) (typedValue : String) (uploaded : Option Uploaded) :
    DepotTaskFE :=
  let typed := jsTrim typedValue
  let custom0 : Option String := if typed = "" then none else some typed
  match uploaded with
  | none => ⟨depot.depotId, depot.manifestId, depot.depotKey, custom0, none⟩
  | some u =>
    ⟨depot.depotId, depot.manifestId, depot.depotKey,
      match custom0 with
      | some c => some c
      | none => manifestIdFromName u.originalName,
      some u.storedPath⟩

lemma takeWhile_append_of_all {p : Char → Bool} {l1 : List Char} (c : Char) (l2 : List Char)
    (h1 : ∀ x ∈ l1, p x = true) (hc : p c = false) :
    (l1 ++ c :: l2).takeWhile p = l1 := by
  induction l1 with
  | nil => simp [List.takeWhile_cons, hc]
  | cons a l ih =>
    have ha := h1 a (List.mem_cons_self a l)
    simp [List.takeWhile_cons, ha, ih (fun x hx => h1 x (List.mem_cons_of_mem a hx))]

lemma dropWhile_append_of_all {p : Char → Bool} {l1 : List Char} (c : Char) (l2 : List Char)
    (h1 : ∀ x ∈ l1, p x = true) (hc : p c = false) :
    (l1 ++ c :: l2).dropWhile p = c :: l2 := by
  induction l1 with
  | nil => simp [List.dropWhile_cons, hc]
  | cons a l ih =>
    have ha := h1 a (List.mem_cons_self a l)
    simp [List.dropWhile_cons, ha, ih (fun x hx => h1 x (List.mem_cons_of_mem a hx))]

lemma manifestIdFromName_pattern (a b : String)
    (ha : a.data ≠ []) (hb : b.data ≠ [])
    (hda : ∀ c ∈ a.data, isDigitC c = true) (hdb : ∀ c ∈ b.data, isDigitC c = true) :
    manifestIdFromName (a ++ "_" ++ b ++ ".manifest") = some b := by
  have hu : isDigitC '_' = false := by decide
  have hdot : isDigitC '.' = false := by decide
  have hus : ("_" : String).data = ['_'] := rfl
  have hms : (".manifest" : String).data = '.' :: "manifest".data := rfl
  have hdata : (a ++ "_" ++ b ++ ".manifest").data
      = a.data ++ '_' :: (b.data ++ '.' :: "manifest".data) := by
    simp [String.data_append, hus, hms]
  have hb' : (b.data ++ '.' :: "manifest".data).takeWhile isDigitC = b.data :=
    takeWhile_append_of_all _ _ hdb hdot
  have hb'' : (b.data ++ '.' :: "manifest".data).dropWhile isDigitC
      = '.' :: "manifest".data :=
    dropWhile_append_of_all _ _ hdb hdot
  unfold manifestIdFromName
  rw [hdata, dropWhile_append_of_all _ _ hda hu]
  simp only [takeWhile_append_of_all _ _ hda hu, hb', hb'', hms]
  rw [if_pos ⟨ha, hb, trivial⟩]

/-- Claim C9: `startDownload` resolves each selected depot's
`customManifestId` as: the typed value (trimmed) when non-empty;
otherwise, when a `.manifest` file is attached whose name matches
`<digits>_<digits>.manifest`, the second digit group; otherwise `null` —
and it always passes the attached file's path as
`uploadedManifestPath`. -/
theorem c9_custom_manifest_resolution (depot : Depot) (typedValue : String)
    (uploaded : Option Uploaded) :
    (jsTrim typedValue ≠ "" →
      (buildTask depot typedValue uploaded).customManifestId = some (jsTrim typedValue)) ∧
    (jsTrim typedValue = "" → uploaded = none →
      (buildTask depot typedValue uploaded).customManifestId = none) ∧
    (jsTrim typedValue = "" → ∀ u, uploaded = some u →
      (buildTask depot typedValue uploaded).customManifestId
        = manifestIdFromName u.originalName) ∧
    (∀ u, uploaded = some u →
      (buildTask depot typedValue uploaded).uploadedManifestPath = some u.storedPath) ∧
    (uploaded = none → (buildTask depot typedValue uploaded).uploadedManifestPath = none) ∧
    (∀ a b : String, a.data ≠ [] → b.data ≠ [] →
      (∀ c ∈ a.data, isDigitC c = true) → (∀ c ∈ b.data, isDigitC c = true) →
      manifestIdFromName (a ++ "_" ++ b ++ ".manifest") = some b) := by
  refine ⟨?_, ?_, ?_, ?_, ?_, manifestIdFromName_pattern⟩
  · intro h
    cases uploaded <;> simp [buildTask, h]
  · intro h h'
    subst h'
    simp [buildTask, h]
  · intro h u h'
    subst h'
    simp [buildTask, h]
  · intro u h'
    subst h'
    simp [buildTask]
  · intro h'
    subst h'
    simp [buildTask]

/-- Claim C9 witness: A typed ID wins; with no typed ID the filename
`"228988_7890123.manifest"` supplies `7890123`; the stored path is
always forwarded. -/
theorem c9_custom_manifest_resolution_witness :
    (buildTask ⟨"228988", "N/A", none⟩ " 42 "
        (some ⟨"228988_7890123.manifest", "C:\\tmp\\up.manifest"⟩)).customManifestId
      = some "42" ∧
    (buildTask ⟨"228988", "N/A", none⟩ ""
        (some ⟨"228988_7890123.manifest", "C:\\tmp\\up.manifest"⟩)).customManifestId
      = manifestIdFromName "228988_7890123.manifest" ∧
    manifestIdFromName ("228988" ++ "_" ++ "7890123" ++ ".manifest") = some "7890123" ∧
    (buildTask ⟨"228988", "N/A", none⟩ ""
        (some ⟨"228988_7890123.manifest", "C:\\tmp\\up.manifest"⟩)).uploadedManifestPath
      = some "C:\\tmp\\up.manifest" := by
  refine ⟨?_, ?_, ?_, ?_⟩
  · have h := (c9_custom_manifest_resolution ⟨"228988", "N/A", none⟩ " 42 "
      (some ⟨"228988_7890123.manifest", "C:\\tmp\\up.manifest"⟩)).1 (by decide)
    rw [h]
    rfl
  · exact (c9_custom_manifest_resolution ⟨"228988", "N/A", none⟩ ""
      (some ⟨"228988_7890123.manifest", "C:\\tmp\\up.manifest"⟩)).2.2.1 (by decide)
      ⟨"228988_7890123.manifest", "C:\\tmp\\up.manifest"⟩ rfl
  · exact (c9_custom_manifest_resolution ⟨"228988", "N/A", none⟩ "" none).2.2.2.2.2
      "228988" "7890123" (by decide) (by decide) (by decide) (by decide)
  · exact (c9_custom_manifest_resolution ⟨"228988", "N/A", none⟩ ""
      (some ⟨"228988_7890123.manifest", "C:\\tmp\\up.manifest"⟩)).2.2.2.1
      ⟨"228988_7890123.manifest", "C:\\tmp\\up.manifest"⟩ rfl

end SMD

namespace SMD

/-! ## Overall progress bar (`updateOverallProgress` / `handleComplete` /
`handleCancelled`, preload.js) -/

/-- JS `Math.round`: round half toward positive infinity. -/
def jsRound (q : ℚ) : ℤ := ⌊q + 1 / 2⌋

/-- Effect of `updateOverallProgress(current, total)` on the overall
progress-bar percentage: a no-op when `total <= 0`, otherwise
`min(round(current / total * 100), 99)`. -/
def updateOverallProgressBar (bar : ℤ) (current total : ℤ) : ℤ :=
  if total ≤ 0 then bar
  else min (jsRound ((current : ℚ) / (total : ℚ) * 100)) 99

/-- The events that write to the overall progress bar: the
`updateOverallProgress` call sites, the `complete` handler (width 100%)
and the `cancelled` handler (width 0%). -/
inductive OverallEvent where
  | progress (current total : ℤ)
  | complete
  | cancelled
deriving DecidableEq, Repr

/-- Effect of one event on the overall bar percentage. -/
def stepOverall (bar : ℤ) : OverallEvent → ℤ
  | .progress c t => updateOverallProgressBar bar c t
  | .complete => 100
  | .cancelled => 0

lemma updateOverallProgressBar_le {bar : ℤ} (hbar : bar ≤ 99) (c t : ℤ) :
    updateOverallProgressBar bar c t ≤ 99 := by
  unfold updateOverallProgressBar
  split
  · exact hbar
  · exact min_le_right _ _

lemma stepOverall_le {bar : ℤ} (hbar : bar ≤ 99) {e : OverallEvent}
    (he : e ≠ .complete) : stepOverall bar e ≤ 99 := by
  cases e with
  | progress c t => exact updateOverallProgressBar_le hbar c t
  | complete => exact absurd rfl he
  | cancelled => norm_num [stepOverall]

lemma foldl_stepOverall_le {bar : ℤ} (hbar : bar ≤ 99) (evs : List OverallEvent)
    (h : ∀ e ∈ evs, e ≠ OverallEvent.complete) :
    List.foldl stepOverall bar evs ≤ 99 := by
  induction evs generalizing bar with
  | nil => exact hbar
  | cons e evs ih =>
    exact ih (stepOverall_le hbar (h e (List.mem_cons_self e evs)))
      (fun x hx => h x (List.mem_cons_of_mem e hx))

/-- Claim C10: The overall progress computation clamps the displayed
percentage to at most 99 (`min(round(current/total*100), 99)`), is a
no-op when `total <= 0`, and hence — starting from the 0% reset of
`initProgressUI` — the overall bar reaches 100% only when a `complete`
event is handled. -/
theorem c10_overall_progress_clamp :
    (∀ bar c t : ℤ, t ≤ 0 → updateOverallProgressBar bar c t = bar) ∧
    (∀ bar c t : ℤ, 0 < t →
      updateOverallProgressBar bar c t
        = min (jsRound ((c : ℚ) / (t : ℚ) * 100)) 99) ∧
    (∀ evs : List OverallEvent, (∀ e ∈ evs, e ≠ OverallEvent.complete) →
      List.foldl stepOverall 0 evs < 100) ∧
    (∀ bar : ℤ, stepOverall bar .complete = 100) := by
  refine ⟨?_, ?_, ?_, fun _ => rfl⟩
  · intro bar c t ht
    simp [updateOverallProgressBar, ht]
  · intro bar c t ht
    rw [updateOverallProgressBar, if_neg (by omega)]
  · intro evs h
    have h0 : (0 : ℤ) ≤ 99 := by norm_num
    have := foldl_stepOverall_le h0 evs h
    omega

/-- Claim C10 witness: A concrete event sequence without `complete` never
shows 100%; a `total <= 0` update is a no-op; a positive-total update is
the clamped rounding; `complete` shows 100%. -/
theorem c10_overall_progress_clamp_witness :
    updateOverallProgressBar 42 3 0 = 42 ∧
    updateOverallProgressBar 42 5 5 = min (jsRound ((5 : ℚ) / (5 : ℚ) * 100)) 99 ∧
    List.foldl stepOverall 0
      [.progress 1 2, .progress 2 2, .cancelled, .progress 5 5] < 100 ∧
    stepOverall 7 .complete = 100 :=
  ⟨c10_overall_progress_clamp.1 42 3 0 (by norm_num),
    c10_overall_progress_clamp.2.1 42 5 5 (by norm_num),
    c10_overall_progress_clamp.2.2.1
      [.progress 1 2, .progress 2 2, .cancelled, .progress 5 5] (by decide),
    c10_overall_progress_clamp.2.2.2 7⟩

end SMD

namespace SMD

/-! ## Job orchestrator state machine

The orchestrator itself (manifest resolution, key-file generation,
sequential DepotDownloader supervision, the job registry and
cancellation) lives in the Tauri backend, which is not part of the
source tree; only its UI-facing consumers are.  The machine below is
therefore modelled from the spec (§3 data model, §4.3–§4.4, §5, §7). -/

/-- Modelled from the spec: the job status values
`Pending → ResolvingManifests → GeneratingKeys → Running → (Cancelling)
→ {Completed | Failed | Cancelled}` (§3). -/
inductive JStatus where
  | pending
  | resolvingManifests
  | generatingKeys
  | running
  | cancelling
  | completed
  | failed
  | cancelled
deriving DecidableEq, Repr

/-- The terminal statuses (§4.4). -/
def JStatus.isTerminal : JStatus → Bool
  | .completed | .failed | .cancelled => true
  | _ => false

/-- Pipeline stage of a status, for the monotonicity invariant: every
terminal status counts as the final stage. -/
def JStatus.rank : JStatus → ℕ
  | .pending => 0
  | .resolvingManifests => 1
  | .generatingKeys => 2
  | .running => 3
  | .cancelling => 4
  | .completed | .failed | .cancelled => 5

/-- Modelled from the spec: a `DownloadJob` (§3) — the task list, the
status, the cancel flag and the per-depot results `{depotId, success}`
collected so far.  `currentTaskIndex` is the number of collected
results. -/
structure Job where
  tasks : List Depot
  status : JStatus
  cancelRequested : Bool
  results : List (String × Bool)
deriving DecidableEq, Repr

/-- The depot the worker processes next. -/
def Job.currentDepotId (j : Job) : String :=
  (j.tasks.map Depot.depotId).getD j.results.length ""

/-- Modelled from the spec: the inputs that drive a job — the worker's
phase outcomes (resolution, key generation, one external-tool exit per
depot, classified solely by exit code, §4.3), a streamed output line
(advisory only, §4.3), and the UI's cancel request (§5). -/
inductive JInput where
  | startResolve
  | resolveOk (ts : List Depot)
  | resolveErr (msg : String)
  | keysOk
  | keysErr (msg : String)
  | outputLine (line : String)
  | depotExit (code : ℤ)
  | requestCancel
deriving DecidableEq, Repr

/-- Modelled from the spec: one transition of the job state machine.
A terminal job is immutable (§3); output lines never affect state
classification (§4.3); a cancel request flips the flag and marks the
transient `Cancelling` stage while a subprocess is live (§4.4, §9); a
worker step on a cancel-requested job stops and reaches `Cancelled`
without attempting further depots (§5, §7); an empty resolved list is a
resolution failure (§4.1); resolution and key-file errors are fatal
(§7); a depot exit appends `{depotId, success := exit code = 0}` and
either advances or completes the job (§4.3). -/
def step (j : Job) (i : JInput) : Job :=
  if j.status.isTerminal then j
  else
    match i with
    | .outputLine _ => j
    | .requestCancel =>
        { j with cancelRequested := true,
                 status := if j.status = .running then .cancelling else j.status }
    | i =>
      if j.cancelRequested then { j with status := .cancelled }
      else
        match j.status, i with
        | .pending, .startResolve => { j with status := .resolvingManifests }
        | .resolvingManifests, .resolveOk ts =>
            if ts.isEmpty then { j with status := .failed }
            else { j with tasks := ts, status := .generatingKeys }
        | .resolvingManifests, .resolveErr _ => { j with status := .failed }
        | .generatingKeys, .keysOk => { j with status := .running }
        | .generatingKeys, .keysErr _ => { j with status := .failed }
        | .running, .depotExit c =>
            if j.results.length + 1 = j.tasks.length then
              { j with results := j.results ++ [(j.currentDepotId, decide (c = 0))],
                       status := .completed }
            else
              { j with results := j.results ++ [(j.currentDepotId, decide (c = 0))] }
        | _, _ => j

/-- A full job run as the spec describes it (§2 control flow): submit,
resolve, generate keys, then one external-tool exit per resolved
depot. -/
def runJob (ts : List Depot) (exits : List ℤ) : Job :=
  List.foldl step ⟨[], .pending, false, []⟩
    ([.startResolve, .resolveOk ts, .keysOk] ++ exits.map JInput.depotExit)

lemma step_terminal {j : Job} (h : j.status.isTerminal = true) (i : JInput) :
    step j i = j := by
  simp [step, h]

lemma foldl_step_terminal {j : Job} (h : j.status.isTerminal = true)
    (inputs : List JInput) : List.foldl step j inputs = j := by
  induction inputs with
  | nil => rfl
  | cons i inputs ih => rw [List.foldl_cons, step_terminal h i, ih]

end SMD

namespace SMD

lemma currentDepotId_eq {j : Job} (h : j.results.length < j.tasks.length) :
    j.currentDepotId = (j.tasks.get ⟨j.results.length, h⟩).depotId := by
  unfold Job.currentDepotId
  rw [List.getD_eq_getElem?_getD, List.getElem?_map, List.getElem?_eq_getElem h]
  simp

lemma run_depots : ∀ (exits : List ℤ) (j : Job), j.status = .running →
    j.cancelRequested = false →
    j.results.length + exits.length = j.tasks.length →
    j.results.length < j.tasks.length →
    (List.foldl step j (exits.map JInput.depotExit)).status = .completed ∧
    (List.foldl step j (exits.map JInput.depotExit)).results
      = j.results ++ ((j.tasks.drop j.results.length).zip exits).map
          (fun p => (p.1.depotId, decide (p.2 = 0))) := by
  intro exits
  induction exits with
  | nil =>
    intro j _ _ hlen hlt
    exfalso
    simp at hlen
    omega
  | cons c rest ih =>
    intro j hrun hcr hlen hlt
    have hterm : j.status.isTerminal = false := by rw [hrun]; rfl
    have hstep : step j (.depotExit c) =
        if j.results.length + 1 = j.tasks.length then
          { j with results := j.results ++ [(j.currentDepotId, decide (c = 0))],
                   status := .completed }
        else
          { j with results := j.results ++ [(j.currentDepotId, decide (c = 0))] } := by
      simp [step, JStatus.isTerminal, hcr, hrun]
    rw [List.map_cons, List.foldl_cons, hstep]
    by_cases hlast : j.results.length + 1 = j.tasks.length
    · rw [if_pos hlast]
      have hrest : rest = [] := by
        apply List.eq_nil_of_length_eq_zero
        simp at hlen
        omega
      subst hrest
      simp only [List.map_nil, List.foldl_nil]
      constructor
      · trivial
      · rw [currentDepotId_eq hlt, List.drop_eq_getElem_cons hlt, List.zip_cons_cons,
          List.zip_nil_right, List.map_cons, List.map_nil]
        simp [List.get_eq_getElem]
    · rw [if_neg hlast]
      have hlt' : j.results.length + 1 < j.tasks.length := by
        simp at hlen
        omega
      obtain ⟨hst, hres⟩ :=
        ih { j with results := j.results ++ [(j.currentDepotId, decide (c = 0))] }
          hrun hcr (by simp at hlen ⊢; omega) (by simp; omega)
      refine ⟨hst, ?_⟩
      rw [hres]
      simp only [List.length_append, List.length_singleton]
      rw [currentDepotId_eq hlt, List.drop_eq_getElem_cons hlt, List.zip_cons_cons,
        List.map_cons]
      simp [List.get_eq_getElem, List.append_assoc]

/-- Claim C4: Modelled from the spec: per-depot results are classified
solely by the external tool's exit code — exit `0` for depot X yields
`{depotId := X, success := true}` and any nonzero exit yields
`success := false`; output lines never influence the classification; a
failed depot does not abort the run, so the job still ends `Completed`
with a mixed results list. -/
theorem c4_exit_code_classification (ts : List Depot) (exits : List ℤ)
    (hne : ts ≠ []) (hlen : exits.length = ts.length) :
    (runJob ts exits).status = .completed ∧
    (runJob ts exits).results
      = (ts.zip exits).map (fun p => (p.1.depotId, decide (p.2 = 0))) ∧
    (∀ (j : Job) (line : String), step j (.outputLine line) = j) := by
  have hts : ts.isEmpty = false := by
    cases ts with
    | nil => exact absurd rfl hne
    | cons a l => rfl
  have h0 : List.foldl step ⟨[], .pending, false, []⟩
      [.startResolve, .resolveOk ts, .keysOk] = ⟨ts, .running, false, []⟩ := by
    simp [step, JStatus.isTerminal, hts]
  have hrun := run_depots exits ⟨ts, .running, false, []⟩ rfl rfl
    (by simpa using hlen)
    (by simpa using List.length_pos.mpr hne)
  rw [runJob, List.foldl_append, h0]
  refine ⟨hrun.1, ?_, ?_⟩
  · rw [hrun.2]
    simp
  · intro j line
    simp [step]

/-- Claim C4 witness: The spec's own scenario: tasks `[101, 102]`, exit 0
for 101 and exit 1 for 102 — the job completes with the mixed results
`[{101, true}, {102, false}]`. -/
theorem c4_exit_code_classification_witness :
    (runJob [⟨"101", "m1", none⟩, ⟨"102", "m2", none⟩] [0, 1]).status = .completed ∧
      (runJob [⟨"101", "m1", none⟩, ⟨"102", "m2", none⟩] [0, 1]).results
        = [("101", true), ("102", false)] := by
  have h := c4_exit_code_classification [⟨"101", "m1", none⟩, ⟨"102", "m2", none⟩]
    [0, 1] (by simp) rfl
  exact ⟨h.1, by rw [h.2.1]; rfl⟩

end SMD

namespace SMD

/-- Modelled from the spec: submitted/resolved task lists are validated
— depot IDs are unique within a job (§1, §3). -/
def JInput.validated : JInput → Prop
  | .resolveOk ts => (ts.map Depot.depotId).Nodup
  | _ => True

lemma rank_step_mono (j : Job) (i : JInput) :
    j.status.rank ≤ (step j i).status.rank := by
  cases hs : j.status <;> cases i <;>
    simp only [step, hs, JStatus.isTerminal, JStatus.rank] <;>
    split_ifs <;>
    simp_all [JStatus.rank]

lemma cancelRequested_step_mono (j : Job) (i : JInput)
    (h : j.cancelRequested = true) : (step j i).cancelRequested = true := by
  cases hs : j.status <;> cases i <;>
    simp only [step, hs, h, JStatus.isTerminal] <;>
    split_ifs <;>
    simp_all

lemma tasks_nodup_step (j : Job) (i : JInput)
    (hinv : (j.tasks.map Depot.depotId).Nodup) (hval : i.validated) :
    ((step j i).tasks.map Depot.depotId).Nodup := by
  cases hs : j.status <;> cases i <;>
    simp only [step, hs, JStatus.isTerminal] <;>
    split_ifs <;>
    first
      | exact hinv
      | exact hval

/-- Claim C8: Modelled from the spec: under every operation of the job
state machine, depot IDs stay unique within the job, the status rank
never decreases (no transition returns to an earlier stage of
`Pending → ResolvingManifests → GeneratingKeys → Running → (Cancelling)
→ terminal`), `cancelRequested` only ever flips `false → true`, and a
job in a terminal status is immutable. -/
theorem c8_job_invariants (j : Job) (i : JInput)
    (hinv : (j.tasks.map Depot.depotId).Nodup) (hval : i.validated) :
    ((step j i).tasks.map Depot.depotId).Nodup ∧
    j.status.rank ≤ (step j i).status.rank ∧
    (j.cancelRequested = true → (step j i).cancelRequested = true) ∧
    (j.status.isTerminal = true → step j i = j) :=
  ⟨tasks_nodup_step j i hinv hval, rank_step_mono j i,
    cancelRequested_step_mono j i, fun h => step_terminal h i⟩

/-- Claim C8 witness: The invariants at a concrete running job receiving a
cancel request. -/
theorem c8_job_invariants_witness :
    (((step ⟨[⟨"101", "m1", none⟩], .running, false, []⟩
        JInput.requestCancel).tasks.map Depot.depotId).Nodup ∧
      JStatus.running.rank ≤ (step ⟨[⟨"101", "m1", none⟩], .running, false, []⟩
        JInput.requestCancel).status.rank ∧
      (false = true → (step ⟨[⟨"101", "m1", none⟩], .running, false, []⟩
        JInput.requestCancel).cancelRequested = true) ∧
      (JStatus.running.isTerminal = true →
        step ⟨[⟨"101", "m1", none⟩], .running, false, []⟩ JInput.requestCancel
          = ⟨[⟨"101", "m1", none⟩], .running, false, []⟩)) :=
  c8_job_invariants ⟨[⟨"101", "m1", none⟩], .running, false, []⟩ JInput.requestCancel
    (by simp) trivial

end SMD

namespace SMD

/-! ## Empty resolution (C6): frontend check and pipeline behaviour -/

/-- The `depots.length === 0` check of `proceedFromSearch`: an empty
resolved list is surfaced as the "no manifests found" error and the flow
never advances to the selection step; otherwise `parsedData` is built. -/
def proceedOutcome (depots : List Depot) (appId : ℕ) :
    Except String (ℕ × List Depot) :=
  if depots.isEmpty then
    Except.error "No manifests found for this App ID in the selected repository"
  else Except.ok (appId, depots)

/-- Claim C6: A manifest resolution that yields zero depots is always a
resolution failure: the frontend reports "no manifests found" instead of
proceeding, and (modelled from the spec) a job receiving an empty
resolved list in `ResolvingManifests` goes directly to `Failed` and —
terminal states being absorbing — never reaches `Running`. -/
theorem c6_empty_resolution_fails :
    (∀ appId : ℕ, proceedOutcome [] appId
      = Except.error "No manifests found for this App ID in the selected repository") ∧
    (∀ j : Job, j.status = .resolvingManifests → j.cancelRequested = false →
      (step j (.resolveOk [])).status = .failed) ∧
    (∀ (j : Job) (inputs : List JInput), j.status = .resolvingManifests →
      j.cancelRequested = false →
      (List.foldl step (step j (.resolveOk [])) inputs).status = .failed ∧
      (List.foldl step (step j (.resolveOk [])) inputs).status ≠ .running) := by
  have hstep : ∀ j : Job, j.status = .resolvingManifests → j.cancelRequested = false →
      step j (.resolveOk []) = { j with status := .failed } := by
    intro j hs hcr
    simp [step, hs, hcr, JStatus.isTerminal]
  refine ⟨fun appId => rfl, fun j hs hcr => by rw [hstep j hs hcr], ?_⟩
  intro j inputs hs hcr
  have habs := foldl_step_terminal (j := { j with status := JStatus.failed }) rfl inputs
  rw [hstep j hs hcr, habs]
  exact ⟨rfl, by simp⟩

/-- Claim C6 witness: A concrete job in `ResolvingManifests` that resolves
zero depots fails and stays failed under further worker inputs. -/
theorem c6_empty_resolution_fails_witness :
    proceedOutcome [] 480
        = Except.error "No manifests found for this App ID in the selected repository" ∧
      (List.foldl step (step ⟨[], .resolvingManifests, false, []⟩ (.resolveOk []))
          [.keysOk, .depotExit 0]).status = .failed :=
  ⟨c6_empty_resolution_fails.1 480,
    (c6_empty_resolution_fails.2.2 ⟨[], .resolvingManifests, false, []⟩
      [.keysOk, .depotExit 0] rfl rfl).1⟩

/-! ## Error event routing (C5): frontend `handleError` and the
modelled propagation policy -/

/-- An `error` progress event: a message and an optional depot ID. -/
structure ErrorMsg where
  message : String
  depotId : Option String
deriving DecidableEq, Repr

/-- The UI state touched by `handleError`: the per-depot status icons,
the terminal log, the completion banner (`showCompletion`) and whether
the progress listener is still attached. -/
structure UIState where
  depotStatuses : List (String × String)
  terminalLog : List (String × String)
  completionShown : Option (Bool × String)
  listenerActive : Bool
deriving DecidableEq, Repr

/-- Embedding of `updateDepotStatus(depotId, status, ...)`: a no-op for
IDs without a progress item. -/
def updateDepotStatusFE (depotId status : String)
    (l : List (String × String)) : List (String × String) :=
  l.map fun p => if p.1 == depotId then (p.1, status) else p

/-- The `handleError` handler from preload.js: mark the depot (if any) as errored,
log the message, and only for a depot-less (fatal, pipeline-level) error
show the failure completion and detach the progress listener. -/
def handleErrorFE (m : ErrorMsg) (s : UIState) : UIState :=
  let s1 := match m.depotId with
    | some d => { s with depotStatuses := updateDepotStatusFE d "error" s.depotStatuses }
    | none => s
  let s2 := { s1 with terminalLog := s1.terminalLog ++ [("Error: " ++ m.message, "error")] }
  match m.depotId with
  | none => { s2 with completionShown := some (false, m.message), listenerActive := false }
  | some _ => s2

/-- Claim C5: An error event with a `depotId` is depot-level: it marks
only that depot failed and neither ends the job view nor detaches the
listener; an error event without a `depotId` is fatal: the UI shows the
failure completion and detaches.  Modelled from the spec, resolution and
key-file errors make the pipeline `Failed` immediately, while a
per-depot failure is absorbed into the results list and the pipeline
keeps running. -/
theorem c5_error_routing :
    (∀ (m : ErrorMsg) (s : UIState) (d : String), m.depotId = some d →
      (handleErrorFE m s).completionShown = s.completionShown ∧
      (handleErrorFE m s).listenerActive = s.listenerActive ∧
      (handleErrorFE m s).depotStatuses
        = updateDepotStatusFE d "error" s.depotStatuses) ∧
    (∀ (m : ErrorMsg) (s : UIState), m.depotId = none →
      (handleErrorFE m s).completionShown = some (false, m.message) ∧
      (handleErrorFE m s).listenerActive = false) ∧
    (∀ (j : Job) (msg : String), j.status = .resolvingManifests →
      j.cancelRequested = false → (step j (.resolveErr msg)).status = .failed) ∧
    (∀ (j : Job) (msg : String), j.status = .generatingKeys →
      j.cancelRequested = false → (step j (.keysErr msg)).status = .failed) ∧
    (∀ (j : Job) (c : ℤ), j.status = .running → j.cancelRequested = false →
      j.results.length + 1 ≠ j.tasks.length →
      (step j (.depotExit c)).status = .running ∧
      (step j (.depotExit c)).results
        = j.results ++ [(j.currentDepotId, decide (c = 0))]) := by
  refine ⟨?_, ?_, ?_, ?_, ?_⟩
  · intro m s d h
    simp [handleErrorFE, h]
  · intro m s h
    simp [handleErrorFE, h]
  · intro j msg hs hcr
    simp [step, hs, hcr, JStatus.isTerminal]
  · intro j msg hs hcr
    simp [step, hs, hcr, JStatus.isTerminal]
  · intro j c hs hcr hlast
    simp [step, hs, hcr, hlast, JStatus.isTerminal]

/-- Claim C5 witness: A depot-level error leaves the view live; a fatal
error shows the failure banner and detaches; a nonzero depot exit keeps
the job running with a `success := false` entry. -/
theorem c5_error_routing_witness :
    (handleErrorFE ⟨"manifest missing", some "101"⟩
        ⟨[("101", "active")], [], none, true⟩).completionShown = none ∧
      (handleErrorFE ⟨"API error", none⟩
        ⟨[("101", "active")], [], none, true⟩).completionShown
        = some (false, "API error") ∧
      (step ⟨[⟨"101", "m1", none⟩, ⟨"102", "m2", none⟩], .running, false, []⟩
        (.depotExit 1)).status = .running := by
  refine ⟨?_, ?_, ?_⟩
  · exact (c5_error_routing.1 ⟨"manifest missing", some "101"⟩
      ⟨[("101", "active")], [], none, true⟩ "101" rfl).1
  · exact (c5_error_routing.2.1 ⟨"API error", none⟩
      ⟨[("101", "active")], [], none, true⟩ rfl).1
  · exact (c5_error_routing.2.2.2.2
      ⟨[⟨"101", "m1", none⟩, ⟨"102", "m2", none⟩], .running, false, []⟩ 1
      rfl rfl (by simp)).1

end SMD

namespace SMD

/-! ## Cancellation (C7): modelled registry cancel and the frontend's
handling of its failures -/

/-- Modelled from the spec: the two failure conditions of
`cancel(jobId)` (§4.4, §7). -/
inductive CancelErr where
  | notFound
  | notRunning
deriving DecidableEq, Repr

/-- Modelled from the spec: the error text surfaced verbatim to the
caller for each cancel failure condition. -/
def CancelErr.message : CancelErr → String
  | .notFound => "Job not found"
  | .notRunning => "Job is not running"

/-- The job registry keyed by job identifier. -/
def lookupJob (reg : List (ℕ × Job)) (jobId : ℕ) : Option Job :=
  (reg.find? fun p => p.1 == jobId).map Prod.snd

/-- Modelled from the spec: `cancel(jobId)` fails with `NotFound` when
the registry has no such job, fails with `NotRunning` when the job is
already terminal, and otherwise flags the live job via a
`requestCancel` transition (§4.4). -/
def cancelJob (reg : List (ℕ × Job)) (jobId : ℕ) :
    Except CancelErr (List (ℕ × Job)) :=
  match lookupJob reg jobId with
  | none => Except.error CancelErr.notFound
  | some j =>
    if j.status.isTerminal then Except.error CancelErr.notRunning
    else Except.ok
      (reg.map fun p => if p.1 == jobId then (p.1, step j .requestCancel) else p)

/-- JS `String.prototype.includes` on character lists. -/
def containsSub (needle : List Char) : List Char → Bool
  | [] => needle.isEmpty
  | c :: t => needle.isPrefixOf (c :: t) || containsSub needle t

/-- JS `String.prototype.toLowerCase` (ASCII range). -/
def jsToLower (s : String) : String :=
  String.mk (s.data.map Char.toLower)

/-- The classification in `cancelDownload`'s catch block:
`errStr.toLowerCase().includes('not found') ||
errStr.toLowerCase().includes('not running')` — such failures are
treated as "the job already ended" rather than as cancel failures. -/
def isNonFatalCancelError (errStr : String) : Bool :=
  containsSub "not found".data (jsToLower errStr).data
    || containsSub "not running".data (jsToLower errStr).data

/-- Claim C7: `cancel(jobId)` fails with `NotFound` when no such job
exists and with `NotRunning` when the job is already terminal; it
succeeds exactly on live jobs (flagging them via `requestCancel`); and
the frontend caller classifies both failure messages as non-fatal. -/
theorem c7_cancel_semantics :
    (∀ (reg : List (ℕ × Job)) (jobId : ℕ), lookupJob reg jobId = none →
      cancelJob reg jobId = Except.error CancelErr.notFound) ∧
    (∀ (reg : List (ℕ × Job)) (jobId : ℕ) (j : Job), lookupJob reg jobId = some j →
      j.status.isTerminal = true →
      cancelJob reg jobId = Except.error CancelErr.notRunning) ∧
    (∀ (reg reg' : List (ℕ × Job)) (jobId : ℕ), cancelJob reg jobId = Except.ok reg' →
      ∃ j, lookupJob reg jobId = some j ∧ j.status.isTerminal = false) ∧
    (∀ (reg : List (ℕ × Job)) (jobId : ℕ) (j : Job), lookupJob reg jobId = some j →
      j.status.isTerminal = false →
      cancelJob reg jobId = Except.ok
        (reg.map fun p => if p.1 == jobId then (p.1, step j .requestCancel) else p)) ∧
    (isNonFatalCancelError (CancelErr.message .notFound) = true ∧
      isNonFatalCancelError (CancelErr.message .notRunning) = true) := by
  refine ⟨?_, ?_, ?_, ?_, by decide, by decide⟩
  · intro reg jobId h
    simp [cancelJob, h]
  · intro reg jobId j h hterm
    simp [cancelJob, h, hterm]
  · intro reg reg' jobId h
    unfold cancelJob at h
    cases hl : lookupJob reg jobId with
    | none =>
      rw [hl] at h
      dsimp only at h
      exact absurd h (by simp)
    | some j =>
      rw [hl] at h
      dsimp only at h
      by_cases hterm : j.status.isTerminal = true
      · rw [if_pos hterm] at h
        exact absurd h (by simp)
      · exact ⟨j, rfl, by simpa using hterm⟩
  · intro reg jobId j h hterm
    simp [cancelJob, h, hterm]

/-- Claim C7 witness: On a two-job registry: cancelling an unknown ID
fails `NotFound`, cancelling a completed job fails `NotRunning`, both
messages are non-fatal to the frontend, and cancelling the live job
succeeds. -/
theorem c7_cancel_semantics_witness :
    cancelJob [(1, ⟨[], .completed, false, []⟩), (2, ⟨[], .running, false, []⟩)] 7
        = Except.error CancelErr.notFound ∧
      cancelJob [(1, ⟨[], .completed, false, []⟩), (2, ⟨[], .running, false, []⟩)] 1
        = Except.error CancelErr.notRunning ∧
      isNonFatalCancelError (CancelErr.message .notFound) = true ∧
      isNonFatalCancelError (CancelErr.message .notRunning) = true ∧
      cancelJob [(1, ⟨[], .completed, false, []⟩), (2, ⟨[], .running, false, []⟩)] 2
        = Except.ok [(1, ⟨[], .completed, false, []⟩),
            (2, ⟨[], .cancelling, true, []⟩)] := by
  refine ⟨?_, ?_, c7_cancel_semantics.2.2.2.2.1, c7_cancel_semantics.2.2.2.2.2, ?_⟩
  · exact c7_cancel_semantics.1
      [(1, ⟨[], .completed, false, []⟩), (2, ⟨[], .running, false, []⟩)] 7 (by decide)
  · exact c7_cancel_semantics.2.1
      [(1, ⟨[], .completed, false, []⟩), (2, ⟨[], .running, false, []⟩)] 1
      ⟨[], .completed, false, []⟩ (by decide) rfl
  · have h := c7_cancel_semantics.2.2.2.1
      [(1, ⟨[], .completed, false, []⟩), (2, ⟨[], .running, false, []⟩)] 2
      ⟨[], .running, false, []⟩ (by decide) rfl
    rw [h]
    rfl

end SMD
